import Mathlib

/-!
Verification of the Source Assembly Resolver of the smartclide-che-theia
repository, shallowly embedded in Lean 4.

The embedded code lives in two TypeScript files:
  * `generator/src/init-sources.ts` — class `InitSources`
    (dependency rewriting, alias parsing, cloning, symlinking,
     yarn-workspace indexing, configuration reading);
  * `extensions/eclipse-che-theia-preferences-provider-extension/src/browser/prefs-provider.ts`
    — class `PreferencesProvider` (preference restoration).

JavaScript maps and JSON objects are embedded as association lists of
key/value pairs in insertion order (JSON.parse never yields duplicate keys;
`obj[k] = v` replaces the value in place when the key exists and appends
otherwise).  Filesystem and network effects are made explicit: existence
checks become a `String → Bool` parameter, network clones become an
abstract function plus a Boolean flag recording that a network operation
happened, and file writes become explicit effect values.  Node `path`
functions (`resolve`, `basename`, `join`) are external library collaborators
and are passed in as function parameters.
-/

namespace CheTheia

/-- Association-list lookup, mirroring `Map.get` / property access on a
JavaScript object: the first entry whose key matches wins (parsed JSON has
unique keys, so there is at most one). `none` plays the role of
`undefined`. -/
def lookupStr (m : List (String × String)) (k : String) : Option String :=
  match m.find? (fun p => p.1 == k) with
  | some p => some p.2
  | none => none

/-- JavaScript truthiness of a possibly-`undefined` string: `undefined` and
the empty string are falsy, every other string is truthy. -/
def jsTruthyStr : Option String → Bool
  | some s => s ≠ ""
  | none => false

/-- Association-list update, mirroring `Map.set` and `obj[k] = v` on a
JavaScript object: if the key is present its value is replaced in place
(position kept), otherwise the pair is appended at the end. -/
def mapSet (m : List (String × String)) (k v : String) : List (String × String) :=
  if m.any (fun p => p.1 == k) then
    m.map (fun p => if p.1 == k then (k, v) else p)
  else
    m ++ [(k, v)]

/-- JavaScript `String.prototype.startsWith(p)` (no position argument),
as a computation on the underlying character lists. -/
def jsStartsWith (s p : String) : Bool :=
  p.toList.isPrefixOf s.toList

namespace InitSources

/-- Prefix for extensions (`InitSources.PREFIX_PACKAGES_EXTENSIONS`). -/
def PREFIX_PACKAGES_EXTENSIONS : String := "@che-"

/-- Embedding of `InitSources.updateDependency(dependencyKey, dependencyValue)`.

```ts
const rest = this.globalDevDependencies.get(dependencyKey);
if (rest) { return rest; }
if (dependencyKey.startsWith('@theia/')) { return `^$\x7bthis.theiaVersion\x7d`; }
return dependencyValue;
```

`globalDevDependencies` (the map built by `initGlobalDependencies` from the
root manifest's `devDependencies`) and `theiaVersion` are fields of the
class and become explicit parameters here.  Note `if (rest)` is a
truthiness test: a key mapped to the empty string behaves as absent. -/
def updateDependency (globalDevDependencies : List (String × String))
    (theiaVersion : String) (dependencyKey dependencyValue : String) : String :=
  let rest := lookupStr globalDevDependencies dependencyKey
  if jsTruthyStr rest then rest.getD dependencyValue
  else if jsStartsWith dependencyKey "@theia/" then "^" ++ theiaVersion
  else dependencyValue

/-- Index of the first `=` in a string as JavaScript's `indexOf` returns
it: the 0-based position, or `-1` when absent. -/
def jsIndexOfEq (s : String) : Int :=
  match s.toList.findIdx? (fun c => c == '=') with
  | some n => (n : Int)
  | none => -1

/-- JavaScript `String.prototype.substring(start, end)`: both arguments are
clamped into `[0, length]` and swapped if out of order, then the characters
in between are returned.  (The sources only apply it to ASCII strings, so
UTF-16 units and characters coincide.) -/
def jsSubstring (s : String) (start stop : Int) : String :=
  let len : Int := (s.length : Int)
  let a : Nat := (max 0 (min start len)).toNat
  let b : Nat := (max 0 (min stop len)).toNat
  String.mk ((s.toList.drop (min a b)).take (max a b - min a b))

/-- Embedding of `InitSources.initSourceLocationAliases(alias)`: processes each override
string and returns the updated `sourceLocationAliases` map (a class field,
threaded explicitly).

```ts
if (alias) {
  alias.forEach(element => {
    if (element.indexOf('=')) {
      const index = element.substring(0, element.indexOf('='));
      const value = element.substring(element.indexOf('=') + 1, element.length);
      this.sourceLocationAliases.set(index, value);
    }
  });
}
```

`if (element.indexOf('='))` is a numeric truthiness test: it is false
exactly when the first `=` sits at position 0, and true when there is no
`=` at all (`indexOf` returns `-1`, which is truthy). -/
def initSourceLocationAliases (aliases : Option (List String))
    (sourceLocationAliases : List (String × String)) : List (String × String) :=
  match aliases with
  | none => sourceLocationAliases
  | some elements =>
    elements.foldl
      (fun acc element =>
        if jsIndexOfEq element ≠ 0 then
          let index := jsSubstring element 0 (jsIndexOfEq element)
          let value := jsSubstring element (jsIndexOfEq element + 1) (element.length : Int)
          mapSet acc index value
        else acc)
      sourceLocationAliases

end InitSources

/-- A JSON value, as produced by parsing a `package.json` manifest.  Objects
keep their fields as ordered association lists (JavaScript property
insertion order; parsed JSON has unique keys). -/
inductive JsonValue where
  | str (s : String)
  | num (n : Int)
  | bool (b : Bool)
  | null
  | arr (elems : List JsonValue)
  | obj (fields : List (String × JsonValue))
deriving Repr

/-- A parsed manifest object: its ordered list of top-level fields. -/
abbrev Manifest := List (String × JsonValue)

/-- Property read `obj[k]` on a parsed JSON object: the value of the first
field named `k`, or `none` for `undefined`. -/
def lookupField (m : Manifest) (k : String) : Option JsonValue :=
  match m.find? (fun p => p.1 == k) with
  | some p => some p.2
  | none => none

/-- Property write `obj[k] = v` on a parsed JSON object: replaces the value
in place when a field named `k` exists, otherwise appends the field. -/
def setField (m : Manifest) (k : String) (v : JsonValue) : Manifest :=
  if m.any (fun p => p.1 == k) then
    m.map (fun p => if p.1 == k then (k, v) else p)
  else
    m ++ [(k, v)]

/-- Embedding of `dependencies ? Object.keys(dependencies) : []` and the subsequent
indexing `dependencies[key]`: the fields of a dependency mapping.  An
absent or `null` value has no keys; a non-object value is not a dependency
mapping and yields none either (package manifests never carry one). -/
def objFields : Option JsonValue → List (String × JsonValue)
  | some (.obj fields) => fields
  | _ => []

namespace InitSources

/-- The action of `updateDependency` inside `updateDependencies`, where the
looked-up dependency value is a JSON field: both replacement branches
produce strings, and the fall-through branch returns the original value.
Agrees with `updateDependency` on string values (`updateDependencyValue_str`
below). -/
def updateDependencyValue (globalDevDependencies : List (String × String))
    (theiaVersion : String) (dependencyKey : String) (dependencyValue : JsonValue) :
    JsonValue :=
  let rest := lookupStr globalDevDependencies dependencyKey
  if jsTruthyStr rest then .str (rest.getD "")
  else if jsStartsWith dependencyKey "@theia/" then .str ("^" ++ theiaVersion)
  else dependencyValue

/-- Embedding of `InitSources.updateDependencies(extension, rewrite)`, restricted to the
rewriting of one symbolic link's manifest (the method maps this body over
`extension.extSymbolicLinks`; the links are independent).

```ts
const extensionPackage = await readPkg(extensionJsonPath, \x7b normalize: false \x7d);
const rawExtensionPackage = require(extensionJsonPath);
const dependencies: any = extensionPackage.dependencies;
const devDependencies: any = extensionPackage.devDependencies;
const updatedDependencies: any = \x7b\x7d;
const updatedDevDependencies: any = \x7b\x7d;
const keysDependencies = dependencies ? Object.keys(dependencies) : [];
... updatedDependencies[key] = this.updateDependency(key, dependencies[key]) ...
rawExtensionPackage['dependencies'] = updatedDependencies;
const keysDevDependencies = devDependencies ? Object.keys(devDependencies) : [];
... updatedDevDependencies[key] = this.updateDependency(key, devDependencies[key]) ...
rawExtensionPackage['devDependencies'] = updatedDevDependencies;
if (rewrite) \x7b ... JSON.stringify(rawExtensionPackage, undefined, 2) + os.EOL ... \x7d
```

Both `readPkg(..., normalize: false)` and `require` parse the same JSON
file, so both reads are the same `raw` object here; the original
`dependencies`/`devDependencies` are read before either field is
overwritten.  The returned manifest is what `JSON.stringify` persists when
`rewrite` is enabled. -/
def updateDependencies (globalDevDependencies : List (String × String))
    (theiaVersion : String) (raw : Manifest) : Manifest :=
  let dependencies := lookupField raw "dependencies"
  let devDependencies := lookupField raw "devDependencies"
  let updatedDependencies : List (String × JsonValue) :=
    (objFields dependencies).map
      (fun p => (p.1, updateDependencyValue globalDevDependencies theiaVersion p.1 p.2))
  let raw1 := setField raw "dependencies" (.obj updatedDependencies)
  let updatedDevDependencies : List (String × JsonValue) :=
    (objFields devDependencies).map
      (fun p => (p.1, updateDependencyValue globalDevDependencies theiaVersion p.1 p.2))
  setField raw1 "devDependencies" (.obj updatedDevDependencies)

end InitSources

/-- The `ISource` interface: one declared source repository.  Fields that
the YAML config may omit (`extensions`, `plugins`) are options; the fields
the resolver itself populates during processing (`clonedDir`,
`extSymbolicLinks`, `pluginSymbolicLinks`) start out unset and carry their
latest assigned values here. -/
structure ISource where
  source : String
  checkoutTo : Option String := none
  extensions : Option (List String) := none
  plugins : Option (List String) := none
  clonedDir : String := ""
  extSymbolicLinks : List String := []
  pluginSymbolicLinks : List String := []
deriving Repr

namespace InitSources

/-- Embedding of `InitSources.clone(extension)`.

```ts
if (fs.existsSync(extension.source)) \x7b
  extension.clonedDir = extension.source;
\x7d else \x7b
  const repository = new Repository(extension.source);
  extension.clonedDir = await repository.clone(...);
\x7d
```

`existsSync` stands for the filesystem probe and `repositoryClone` for the
directory `Repository.clone` returns after its network fetch.  The Boolean
in the result records whether the network branch ran. -/
def clone (existsSync : String → Bool) (repositoryClone : String → String)
    (extension : ISource) : ISource × Bool :=
  if existsSync extension.source then
    ({ extension with clonedDir := extension.source }, false)
  else
    ({ extension with clonedDir := repositoryClone extension.source }, true)

/-- Embedding of `InitSources.symlink(source)`.

```ts
const symbolicLinks: string[] = [];
if (source.extensions) \x7b
  await Promise.all(source.extensions.map(async folder => \x7b
    const sourceFolder = path.resolve(source.clonedDir, folder);
    const dest = path.resolve(this.packagesFolder,
      `$\x7bInitSources.PREFIX_PACKAGES_EXTENSIONS\x7d$\x7bpath.basename(sourceFolder)\x7d`);
    await fs.ensureSymlink(sourceFolder, dest);
    symbolicLinks.push(dest);
  \x7d));
\x7d else \x7b
  const dest = path.resolve(this.packagesFolder,
    `$\x7bInitSources.PREFIX_PACKAGES_EXTENSIONS\x7d$\x7bpath.basename(source.clonedDir)\x7d`);
  await fs.ensureSymlink(source.clonedDir, dest);
  symbolicLinks.push(dest);
\x7d
source.extSymbolicLinks = symbolicLinks;
```

`path.resolve` and `path.basename` are Node library collaborators passed in
as parameters.  The `Promise.all` settles every task; concurrency can only
permute `push` order, and the list is modelled in declaration order. -/
def symlink (resolve : String → String → String) (basename : String → String)
    (packagesFolder : String) (source : ISource) : ISource :=
  let symbolicLinks : List String :=
    match source.extensions with
    | some folders =>
      folders.map (fun folder =>
        let sourceFolder := resolve source.clonedDir folder
        resolve packagesFolder (PREFIX_PACKAGES_EXTENSIONS ++ basename sourceFolder))
    | none =>
      [resolve packagesFolder (PREFIX_PACKAGES_EXTENSIONS ++ basename source.clonedDir)]
  { source with extSymbolicLinks := symbolicLinks }

/-- Embedding of `InitSources.pluginsSymlink(source)`: same shape as `symlink`, but the
links go under `pluginsFolder`, the names carry no prefix, and the results
are recorded in `pluginSymbolicLinks`. -/
def pluginsSymlink (resolve : String → String → String) (basename : String → String)
    (pluginsFolder : String) (source : ISource) : ISource :=
  let symbolicLinks : List String :=
    match source.plugins with
    | some folders =>
      folders.map (fun folder =>
        let sourceFolder := resolve source.clonedDir folder
        resolve pluginsFolder (basename sourceFolder))
    | none =>
      [resolve pluginsFolder (basename source.clonedDir)]
  { source with pluginSymbolicLinks := symbolicLinks }

/-- Embedding of `InitSources.getYarnWorkspaces()`.

```ts
const yarnWorkspaces = new Map<string, YarnWorkspace>();
const yarnWorkspacesRawData = cp.execSync('yarn --json --silent workspaces info', ...);
const yarnWorkspacesParsedContent = JSON.parse(yarnWorkspacesRawData.toString());
if (yarnWorkspacesParsedContent && yarnWorkspacesParsedContent.data) \x7b
  const yarnWorkspacesParsedData = JSON.parse(yarnWorkspacesParsedContent.data.toString());
  for (const [packageName, workspace] of Object.entries(yarnWorkspacesParsedData)) \x7b
    const yarnWorkspace = workspace as YarnWorkspace;
    yarnWorkspace.location = path.join(this.rootFolder, yarnWorkspace.location);
    yarnWorkspaces.set(packageName, yarnWorkspace);
  \x7d
\x7d
if (yarnWorkspaces.size === 0) \x7b throw new Error('Yarn Workspaces are not found'); \x7d
return yarnWorkspaces;
```

`parsedData` carries the entries of the doubly-parsed yarn output — each a
package name plus its workspace `location` (the only `YarnWorkspace` field
this method touches) — and is `none` when the parsed content or its `data`
field is falsy.  `joinP` stands for `path.join`.  The thrown `Error`
becomes `Except.error` of its message. -/
def getYarnWorkspaces (rootFolder : String) (joinP : String → String → String)
    (parsedData : Option (List (String × String))) :
    Except String (List (String × String)) :=
  let yarnWorkspaces : List (String × String) :=
    match parsedData with
    | some entries =>
      entries.foldl (fun m e => mapSet m e.1 (joinP rootFolder e.2)) []
    | none => []
  if yarnWorkspaces.length = 0 then .error "Yarn Workspaces are not found"
  else .ok yarnWorkspaces

/-- One observable on-disk side effect of `readConfigurationAndGenerate`:
either the raw write of the downloaded default config into a temp file, or
the whole `generate(path, dev)` call, inside which every manifest /
symlink / reference mutation of a run happens. -/
inductive Effect where
  | writeFileSync (path : String) (data : String)
  | generate (extensionsYamlPath : String) (dev : Bool)
deriving Repr, DecidableEq

/-- Embedding of `InitSources.readConfigurationAndGenerate(configPath, dev)`.

```ts
let extensionsYamlPath: string;
if (configPath) \x7b
  extensionsYamlPath = path.resolve(configPath);
  if (!fs.existsSync(extensionsYamlPath)) \x7b
    throw new CliError('Config file does not exists');
  \x7d
\x7d else \x7b
  const tmpFile = tmp.fileSync();
  const response = await axios.default.get(InitSources.DEFAULT_EXTENSIONS_URI);
  fs.writeFileSync(tmpFile.name, data);
  extensionsYamlPath = tmpFile.name;
\x7d
await this.generate(extensionsYamlPath, dev);
```

The result pairs the trace of performed effects with either success or the
thrown `CliError`'s message.  `resolve` is `path.resolve`, `existsSync` the
filesystem probe, `tmpFileName` the fresh temp-file name and
`downloadedData` the body fetched from the default URI.  `if (configPath)`
is a truthiness test: an absent or empty config path selects the download
branch. -/
def readConfigurationAndGenerate (existsSync : String → Bool)
    (resolve : String → String) (tmpFileName downloadedData : String)
    (configPath : Option String) (dev : Bool) :
    List Effect × Except String Unit :=
  if jsTruthyStr configPath then
    let extensionsYamlPath := resolve (configPath.getD "")
    if existsSync extensionsYamlPath then
      ([Effect.generate extensionsYamlPath dev], .ok ())
    else
      ([], .error "Config file does not exists")
  else
    ([Effect.writeFileSync tmpFileName downloadedData,
      Effect.generate tmpFileName dev], .ok ())

end InitSources

namespace PreferencesProvider

/-- The `PreferenceScope` values the provider uses. -/
inductive PreferenceScope where
  | user
  | workspace
deriving Repr, DecidableEq

/-- One environment variable of a component status (`\x7b name, value \x7d`). -/
structure EnvVar where
  name : String
  value : String
deriving Repr

/-- A component status as consumed by `getPluginsProperties`: only its
`name` and optional `env` list are read. -/
structure ComponentStatus where
  name : String
  env : Option (List EnvVar) := none
deriving Repr

/-- A preference mapping (keys to raw string values), as found in a devfile
component's `plugin.preferences` or in its
`che-theia.eclipse.org/vscode-preferences` attribute. -/
abbrev PrefMap := List (String × String)

/-- A devfile component as consumed by `getPluginsProperties`: an optional
`plugin` section with optional `preferences`, and an optional `attributes`
object mapping attribute names to preference objects. -/
structure Component where
  pluginPreferences : Option (Option PrefMap) := none
  attributes : Option (List (String × PrefMap)) := none
deriving Repr

/-- The callback `getPluginsProperties` maps over `componentStatuses` (the
V1 path): the preferences parsed from the component's
`CHE_THEIA_SIDECAR_PREFERENCES` environment variable, or the empty object
when the env list or the variable is missing or its value fails to parse
(`parse` returns `none` where `JSON.parse` would throw; the throw is
logged and falls through to `return \x7b\x7d`). -/
def componentStatusPreference (parse : String → Option PrefMap)
    (componentStatus : ComponentStatus) : PrefMap :=
  match componentStatus.env with
  | some envs =>
    match envs.find? (fun env => env.name == "CHE_THEIA_SIDECAR_PREFERENCES") with
    | some preferencesEnv => (parse preferencesEnv.value).getD []
    | none => []
  | none => []

/-- Embedding of `PreferencesProvider.getPluginsProperties()`.

```ts
const components = devfile.components;
if (!components) \x7b throw new TypeError('Can not get "components" ...'); \x7d
const devfilePluginPreferences = components.map(component =>
  component.plugin ? (component.plugin.preferences || \x7b\x7d) : \x7b\x7d);
const preferencesAttributes = components
  .map(component => component.attributes || \x7b\x7d)
  .map(attributes => attributes['che-theia.eclipse.org/vscode-preferences'] || \x7b\x7d);
const mergedPreferences = Object.assign(\x7b\x7d, ...preferencesAttributes);
if (Object.keys(mergedPreferences).length > 0) \x7b
  return flatten(preferencesAttributes);
\x7d
const componentStatusPreferences = componentStatuses.map(componentStatus => \x7b
  if (componentStatus?.env) \x7b
    const preferencesEnv = componentStatus.env.find(env =>
      env.name === 'CHE_THEIA_SIDECAR_PREFERENCES');
    if (preferencesEnv) \x7b
      try \x7b return JSON.parse(preferencesEnv.value); \x7d
      catch (error) \x7b console.error('Ignoring invalid JSON value ...'); \x7d
    \x7d
  \x7d
  return \x7b\x7d;
\x7d);
return flatten(devfilePluginPreferences.concat(componentStatusPreferences));
```

where `flatten` is the `reduce` that pushes every `[key, preferences[key]]`
pair of every object in order.  `parse` stands for `JSON.parse` on the env
payload, returning the parsed object's string entries or `none` when
parsing throws — a throw only logs, and the component falls through to the
final `return \x7b\x7d`.  `Object.assign` makes `mergedPreferences` non-empty
exactly when some attribute object has a key.  The thrown `TypeError` for a
missing `components` section becomes `Except.error`; its message is carried
here without the quoting punctuation of the original text (none of the
claims observes the message's exact characters). -/
def getPluginsProperties (parse : String → Option PrefMap)
    (components : Option (List Component))
    (componentStatuses : List ComponentStatus) :
    Except String (List (String × String)) :=
  match components with
  | none => .error "Can not get components of current workspace devfile section."
  | some comps =>
    let devfilePluginPreferences : List PrefMap :=
      comps.map (fun component =>
        match component.pluginPreferences with
        | some prefs => prefs.getD []
        | none => [])
    let preferencesAttributes : List PrefMap :=
      comps.map (fun component =>
        match (component.attributes.getD []).find?
            (fun p => p.1 == "che-theia.eclipse.org/vscode-preferences") with
        | some p => p.2
        | none => [])
    if preferencesAttributes.any (fun prefs => !prefs.isEmpty) then
      .ok (preferencesAttributes.foldl (fun result prefs => result ++ prefs) [])
    else
      let componentStatusPreferences : List PrefMap :=
        componentStatuses.map (componentStatusPreference parse)
      .ok ((devfilePluginPreferences ++ componentStatusPreferences).foldl
        (fun result prefs => result ++ prefs) [])

/-- A value held by the preference service: either a successfully parsed
JSON payload or the raw string fallback. -/
inductive PrefValue where
  | json (v : JsonValue)
  | str (s : String)
deriving Repr

/-- The preference service's state: for each known key, its value and the
scope it was set at.  `has` and `set` below mirror
`preferenceService.has(key)` and `preferenceService.set(key, value, scope)`. -/
abbrev PrefState := List (String × PrefValue × PreferenceScope)

/-- Embedding of `preferenceService.has(key)`. -/
def hasPref (state : PrefState) (key : String) : Bool :=
  state.any (fun e => e.1 == key)

/-- Embedding of `preferenceService.set(key, value, scope)`: replaces the entry in place
when the key is known, appends it otherwise. -/
def setPref (state : PrefState) (key : String) (value : PrefValue)
    (scope : PreferenceScope) : PrefState :=
  if state.any (fun e => e.1 == key) then
    state.map (fun e => if e.1 == key then (key, value, scope) else e)
  else
    state ++ [(key, value, scope)]

/-- Embedding of `PreferencesProvider.setPreferenceValue(key, value)`.

```ts
if (!this.preferenceService.has(key)) \x7b
  await this.preferenceService.set(key, value, PreferenceScope.Workspace);
\x7d
``` -/
def setPreferenceValue (state : PrefState) (key : String) (value : PrefValue) :
    PrefState :=
  if hasPref state key then state
  else setPref state key value .workspace

/-- Embedding of `PreferencesProvider.setPluginProperties(props)`.

```ts
for (const [key, value] of props) \x7b
  try \x7b
    this.setPreferenceValue(key, JSON.parse(value));
  \x7d catch (error) \x7b
    console.warn('could not parse value for preference key %s, using string value: %o', ...);
    this.setPreferenceValue(key, value);
  \x7d
\x7d
```

`parse` models `JSON.parse` on the preference payload (`none` when it
throws); on a parse failure the warning is logged and the raw string is
set instead. -/
def setPluginProperties (parse : String → Option JsonValue)
    (props : List (String × String)) (state : PrefState) : PrefState :=
  props.foldl
    (fun st kv =>
      match parse kv.2 with
      | some v => setPreferenceValue st kv.1 (.json v)
      | none => setPreferenceValue st kv.1 (.str kv.2))
    state

/-- Embedding of `PreferencesProvider.restorePluginProperties()`: reads the plugin
properties and applies them; a throw from `getPluginsProperties`
propagates and leaves the preference state untouched. -/
def restorePluginProperties (parseEnv : String → Option PrefMap)
    (parseValue : String → Option JsonValue)
    (components : Option (List Component))
    (componentStatuses : List ComponentStatus) (state : PrefState) :
    PrefState × Except String Unit :=
  match getPluginsProperties parseEnv components componentStatuses with
  | .error e => (state, .error e)
  | .ok propsTuples => (setPluginProperties parseValue propsTuples state, .ok ())

/-- Observation of the preference service's state: the value and scope on
record for a key, mirroring `preferenceService.get(key)`. -/
def lookupPref (state : PreferencesProvider.PrefState) (key : String) :
    Option (PreferencesProvider.PrefValue × PreferencesProvider.PreferenceScope) :=
  match state.find? (fun e => e.1 == key) with
  | some e => some e.2
  | none => none

end PreferencesProvider

end CheTheia

namespace CheTheia

/-! ### Association-list lemmas

The in-place-replace-or-append update used by `setField`, `mapSet` and
`PreferencesProvider.setPref` satisfies the usual map laws; they are proved
here once, generically in the value type. -/

theorem find?_replace_self {β : Type} (l : List (String × β)) (k : String) (v : β)
    (h : l.any (fun p => p.1 == k) = true) :
    (l.map (fun p => if p.1 == k then (k, v) else p)).find? (fun p => p.1 == k) =
      some (k, v) := by
  induction l with
  | nil => simp at h
  | cons q t ih =>
    rw [List.map_cons]
    by_cases hq : (q.1 == k) = true
    · rw [if_pos hq]
      exact List.find?_cons_of_pos _ (by simp)
    · rw [if_neg hq, List.find?_cons_of_neg _ (a := q) hq]
      have ht : (t.any fun p => p.1 == k) = true := by
        simp only [List.any_cons, Bool.or_eq_true] at h
        exact h.resolve_left hq
      exact ih ht

theorem find?_replace_ne {β : Type} (l : List (String × β)) (k k' : String) (v : β)
    (h : (k' == k) = false) :
    (l.map (fun p => if p.1 == k then (k, v) else p)).find? (fun p => p.1 == k') =
      l.find? (fun p => p.1 == k') := by
  have hne : ¬ k = k' := fun hc => by simp [hc] at h
  induction l with
  | nil => rfl
  | cons q t ih =>
    rw [List.map_cons]
    by_cases hq : (q.1 == k) = true
    · have hqk : q.1 = k := by simpa using hq
      rw [if_pos hq, List.find?_cons_of_neg _ (a := (k, v)) (by simpa using hne),
        List.find?_cons_of_neg _ (a := q) (by simpa [hqk] using hne), ih]
    · rw [if_neg hq]
      by_cases hq' : (q.1 == k') = true
      · rw [List.find?_cons_of_pos _ (a := q) hq', List.find?_cons_of_pos _ (a := q) hq']
      · rw [List.find?_cons_of_neg _ (a := q) hq', List.find?_cons_of_neg _ (a := q) hq', ih]

theorem filter_replace {β : Type} (l : List (String × β)) (q : String → Bool)
    (k : String) (v : β) (hq : q k = false) :
    (l.map (fun p => if p.1 == k then (k, v) else p)).filter (fun p => q p.1) =
      l.filter (fun p => q p.1) := by
  induction l with
  | nil => rfl
  | cons e t ih =>
    rw [List.map_cons]
    by_cases he : (e.1 == k) = true
    · have hek : e.1 = k := by simpa using he
      rw [if_pos he, List.filter_cons_of_neg (a := (k, v)) (by simp [hq]),
        List.filter_cons_of_neg (a := e) (by simp [hek, hq]), ih]
    · rw [if_neg he]
      by_cases he' : q e.1 = true
      · rw [List.filter_cons_of_pos (a := e) he', List.filter_cons_of_pos (a := e) he', ih]
      · rw [List.filter_cons_of_neg (a := e) (by simpa using he'),
          List.filter_cons_of_neg (a := e) (by simpa using he'), ih]

theorem find?_none_of_any_false {β : Type} (l : List (String × β)) (k : String)
    (h : l.any (fun p => p.1 == k) = false) :
    l.find? (fun p => p.1 == k) = none := by
  induction l with
  | nil => rfl
  | cons q t ih =>
    simp only [List.any_cons, Bool.or_eq_false_iff] at h
    simp [h.1, ih h.2]

/-! ### Laws of the replace-or-append update -/

theorem lookupField_setField_self (m : Manifest) (k : String) (v : JsonValue) :
    lookupField (setField m k v) k = some v := by
  unfold lookupField setField
  by_cases h : m.any (fun p => p.1 == k) = true
  · rw [if_pos h, find?_replace_self m k v h]
  · rw [if_neg h, List.find?_append,
      find?_none_of_any_false m k (Bool.eq_false_iff.mpr h)]
    simp

theorem lookupField_setField_ne (m : Manifest) (k k' : String) (v : JsonValue)
    (h : k' ≠ k) :
    lookupField (setField m k v) k' = lookupField m k' := by
  have hb : (k' == k) = false := by simpa using h
  unfold lookupField setField
  by_cases hm : m.any (fun p => p.1 == k) = true
  · rw [if_pos hm, find?_replace_ne m k k' v hb]
  · rw [if_neg hm, List.find?_append]
    have hlast : List.find? (fun p => p.1 == k') [(k, v)] = none := by
      have : (k == k') = false := by
        simpa using fun hc : k = k' => h hc.symm
      simp [List.find?, this]
    rw [hlast]
    cases m.find? (fun p => p.1 == k') <;> rfl

theorem filterKeys_setField (m : Manifest) (q : String → Bool) (k : String)
    (v : JsonValue) (hq : q k = false) :
    (setField m k v).filter (fun p => q p.1) = m.filter (fun p => q p.1) := by
  unfold setField
  by_cases hm : m.any (fun p => p.1 == k) = true
  · rw [if_pos hm, filter_replace m q k v hq]
  · rw [if_neg hm, List.filter_append]
    simp [hq]

/-- Sanity: the JSON-field action of the rewriter agrees with the
string-typed `updateDependency` on string-valued dependencies. -/
theorem updateDependencyValue_str (gd : List (String × String)) (tv k v : String) :
    InitSources.updateDependencyValue gd tv k (.str v) =
      .str (InitSources.updateDependency gd tv k v) := by
  simp only [InitSources.updateDependencyValue, InitSources.updateDependency]
  by_cases h : jsTruthyStr (lookupStr gd k) = true
  · rw [if_pos h, if_pos h]
    cases hl : lookupStr gd k with
    | none => rw [hl] at h; cases h
    | some s => rfl
  · rw [if_neg h, if_neg h]
    by_cases hs : jsStartsWith k "@theia/" = true
    · rw [if_pos hs, if_pos hs]
    · rw [if_neg hs, if_neg hs]

/-! ### Claim theorems -/

/-- C1.  `updateDependency` follows a strict precedence chain, refined by
the truthiness of the global-set lookup: a name mapped in the global
build-time dependency set to a non-empty value rewrites to that value (in
particular this wins over the platform prefix); a name the set does not
reach (absent, or mapped to the empty string, which `if (rest)` treats as
absent) rewrites to a caret range on the platform version when it starts
with the platform-namespace prefix, and otherwise keeps its declared
version. -/
theorem updateDependency_precedence (gd : List (String × String)) (tv k v : String) :
    (∀ r, lookupStr gd k = some r → r ≠ "" →
      InitSources.updateDependency gd tv k v = r) ∧
    ((lookupStr gd k = none ∨ lookupStr gd k = some "") →
      InitSources.updateDependency gd tv k v =
        if jsStartsWith k "@theia/" then "^" ++ tv else v) := by
  unfold InitSources.updateDependency
  constructor
  · intro r hr hne
    rw [hr]
    simp [jsTruthyStr, hne]
  · rintro (hr | hr) <;> rw [hr] <;> simp [jsTruthyStr]

/-- C1, witness: a name in the global set with a non-empty value keeps that
value even though it is platform-prefixed; a name outside the set gets the
caret range. -/
theorem updateDependency_precedence_witness :
    InitSources.updateDependency [("@theia/core", "9.9.9")] "7.7.7" "@theia/core" "0.1.0" =
      "9.9.9" ∧
    InitSources.updateDependency [("other", "1.0.0")] "7.7.7" "@theia/core" "0.1.0" =
      "^7.7.7" := by
  constructor
  · exact (updateDependency_precedence [("@theia/core", "9.9.9")] "7.7.7"
      "@theia/core" "0.1.0").1 "9.9.9" rfl (by decide)
  · exact ((updateDependency_precedence [("other", "1.0.0")] "7.7.7"
      "@theia/core" "0.1.0").2 (Or.inl rfl)).trans (by decide)

/-- C1, counterexample to the claim as stated: a name that is a key of the
global set but mapped to the empty string does not receive the set's value
— the truthiness test `if (rest)` skips it and the platform-prefix branch
fires instead. -/
theorem updateDependency_empty_value_counterexample :
    lookupStr [("@theia/core", "")] "@theia/core" = some "" ∧
    InitSources.updateDependency [("@theia/core", "")] "1.2.3" "@theia/core" "0.0.1" =
      "^1.2.3" ∧
    ("^1.2.3" : String) ≠ "" := by decide

/-- C2.  The `element.indexOf('=')` truthiness check misfires at both
edges: an override with no `=` at all is processed (it yields `-1`, which
is truthy), installing the alias `"" -> element`, while an override whose
first `=` sits at position 0 is skipped even though it has a separator.
Overrides with `=` at a positive position are split at the first `=` as
intended. -/
theorem initSourceLocationAliases_indexOf_truthiness :
    InitSources.initSourceLocationAliases (some ["local-checkout"]) [] =
      [("", "local-checkout")] ∧
    InitSources.initSourceLocationAliases (some ["=local"]) [] = [] ∧
    InitSources.initSourceLocationAliases (some ["https://host/repo=../local-repo"]) [] =
      [("https://host/repo", "../local-repo")] := by decide

/-- C3.  `updateDependencies` only ever assigns the `dependencies` and
`devDependencies` fields of the raw manifest object before persisting it:
every other field — known or unknown — survives with its position and value
intact. -/
theorem updateDependencies_preserves_other_fields
    (gd : List (String × String)) (tv : String) (raw : Manifest) :
    (InitSources.updateDependencies gd tv raw).filter
        (fun p => !(p.1 == "dependencies") && !(p.1 == "devDependencies")) =
      raw.filter (fun p => !(p.1 == "dependencies") && !(p.1 == "devDependencies")) := by
  simp only [InitSources.updateDependencies]
  rw [filterKeys_setField _ (fun s => !(s == "dependencies") && !(s == "devDependencies"))
        _ _ (by decide),
      filterKeys_setField _ (fun s => !(s == "dependencies") && !(s == "devDependencies"))
        _ _ (by decide)]

/-- C4.  A manifest with no `dependencies` (resp. `devDependencies`) key is
rewritten to one whose `dependencies` (resp. `devDependencies`) key is
present and maps to the empty object — not absent, not `null`. -/
theorem updateDependencies_empty_mapping
    (gd : List (String × String)) (tv : String) (raw : Manifest) :
    (lookupField raw "dependencies" = none →
      lookupField (InitSources.updateDependencies gd tv raw) "dependencies" =
        some (.obj [])) ∧
    (lookupField raw "devDependencies" = none →
      lookupField (InitSources.updateDependencies gd tv raw) "devDependencies" =
        some (.obj [])) := by
  constructor
  · intro h
    simp only [InitSources.updateDependencies]
    rw [lookupField_setField_ne _ _ _ _ (by decide), h]
    exact lookupField_setField_self raw "dependencies" _
  · intro h
    simp only [InitSources.updateDependencies]
    rw [h]
    exact lookupField_setField_self _ "devDependencies" _

/-- C4, witness: a one-field manifest with neither dependency kind gains
both keys, each mapping to the empty object. -/
theorem updateDependencies_empty_mapping_witness :
    lookupField (InitSources.updateDependencies [] "1.0.0" [("name", .str "pkg")])
        "dependencies" = some (.obj []) ∧
    lookupField (InitSources.updateDependencies [] "1.0.0" [("name", .str "pkg")])
        "devDependencies" = some (.obj []) :=
  ⟨(updateDependencies_empty_mapping [] "1.0.0" [("name", .str "pkg")]).1 rfl,
    (updateDependencies_empty_mapping [] "1.0.0" [("name", .str "pkg")]).2 rfl⟩

/-- C5.  When the locator is an existing local filesystem path, `clone`
performs no network operation and materializes the entry at exactly that
path; a second call on the result — under any filesystem state that still
has the path, and any remote-clone behaviour — again performs no network
operation and yields the identical directory. -/
theorem clone_local_path_short_circuit
    (existsSync1 existsSync2 : String → Bool)
    (repositoryClone1 repositoryClone2 : String → String) (extension : ISource)
    (h1 : existsSync1 extension.source = true)
    (h2 : existsSync2 extension.source = true) :
    (InitSources.clone existsSync1 repositoryClone1 extension).2 = false ∧
    (InitSources.clone existsSync1 repositoryClone1 extension).1.clonedDir =
      extension.source ∧
    (InitSources.clone existsSync2 repositoryClone2
        (InitSources.clone existsSync1 repositoryClone1 extension).1).2 = false ∧
    (InitSources.clone existsSync2 repositoryClone2
        (InitSources.clone existsSync1 repositoryClone1 extension).1).1.clonedDir =
      (InitSources.clone existsSync1 repositoryClone1 extension).1.clonedDir := by
  unfold InitSources.clone
  simp [h1, h2]

/-- C5, witness: cloning an existing path twice touches no network and
returns the path both times. -/
theorem clone_local_path_short_circuit_witness :
    (InitSources.clone (fun _ => true) (fun s => s)
        { source := "/tmp/checkout" }).2 = false ∧
    (InitSources.clone (fun _ => true) (fun s => s)
        { source := "/tmp/checkout" }).1.clonedDir = "/tmp/checkout" ∧
    (InitSources.clone (fun _ => true) (fun s => s)
        (InitSources.clone (fun _ => true) (fun s => s)
          { source := "/tmp/checkout" }).1).2 = false ∧
    (InitSources.clone (fun _ => true) (fun s => s)
        (InitSources.clone (fun _ => true) (fun s => s)
          { source := "/tmp/checkout" }).1).1.clonedDir =
      (InitSources.clone (fun _ => true) (fun s => s)
        { source := "/tmp/checkout" }).1.clonedDir :=
  clone_local_path_short_circuit (fun _ => true) (fun _ => true) (fun s => s)
    (fun s => s) { source := "/tmp/checkout" } rfl rfl

/-- C6.  Declared extension subfolders produce exactly one link each under
the extensions root, named `@che-` plus the subfolder's base name; with no
declared subfolders a single prefixed link to the materialized root is
produced.  Plugin subfolders independently produce one unprefixed link
each under the plugins root (or one root link when none are declared), and
each step records its produced links on the entry. -/
theorem symlink_links (resolve : String → String → String) (basename : String → String)
    (packagesFolder pluginsFolder : String) (source : ISource) :
    (∀ folders, source.extensions = some folders →
      (InitSources.symlink resolve basename packagesFolder source).extSymbolicLinks =
        folders.map (fun folder =>
          resolve packagesFolder ("@che-" ++ basename (resolve source.clonedDir folder)))) ∧
    (source.extensions = none →
      (InitSources.symlink resolve basename packagesFolder source).extSymbolicLinks =
        [resolve packagesFolder ("@che-" ++ basename source.clonedDir)]) ∧
    (∀ folders, source.plugins = some folders →
      (InitSources.pluginsSymlink resolve basename pluginsFolder source).pluginSymbolicLinks =
        folders.map (fun folder =>
          resolve pluginsFolder (basename (resolve source.clonedDir folder)))) ∧
    (source.plugins = none →
      (InitSources.pluginsSymlink resolve basename pluginsFolder source).pluginSymbolicLinks =
        [resolve pluginsFolder (basename source.clonedDir)]) := by
  refine ⟨fun folders h => ?_, fun h => ?_, fun folders h => ?_, fun h => ?_⟩ <;>
    simp [InitSources.symlink, InitSources.pluginsSymlink, h,
      InitSources.PREFIX_PACKAGES_EXTENSIONS]

/-- C6, witness: two declared extension subfolders yield two prefixed
links; no declared plugin subfolders yield a single unprefixed root link. -/
theorem symlink_links_witness :
    (InitSources.symlink (fun a b => a ++ "/" ++ b) (fun s => s) "/packages"
        { source := "repo", clonedDir := "/cloned",
          extensions := some ["folder1", "folder2"] }).extSymbolicLinks =
      ["/packages/@che-/cloned/folder1", "/packages/@che-/cloned/folder2"] ∧
    (InitSources.pluginsSymlink (fun a b => a ++ "/" ++ b) (fun s => s) "/plugins"
        { source := "repo", clonedDir := "/cloned" }).pluginSymbolicLinks =
      ["/plugins//cloned"] := by
  constructor
  · exact ((symlink_links (fun a b => a ++ "/" ++ b) (fun s => s) "/packages" "/plugins"
      { source := "repo", clonedDir := "/cloned",
        extensions := some ["folder1", "folder2"] }).1
      ["folder1", "folder2"] rfl).trans (by decide)
  · exact ((symlink_links (fun a b => a ++ "/" ++ b) (fun s => s) "/packages" "/plugins"
      { source := "repo", clonedDir := "/cloned" }).2.2.2 rfl).trans (by decide)

theorem ok_of_guarded_if {α : Type} {msg : String} {l ws : List α}
    (h : (if l.length = 0 then (Except.error msg : Except String (List α))
          else Except.ok l) = Except.ok ws) : ws ≠ [] := by
  by_cases hl : l.length = 0
  · rw [if_pos hl] at h
    cases h
  · rw [if_neg hl] at h
    injection h with h2
    subst h2
    intro hnil
    exact hl (by rw [hnil]; rfl)

/-- C7.  Constructing the workspace index fails with the fatal error when
discovery yields zero packages (falsy yarn output or an empty entry set),
and every successfully returned index is non-empty. -/
theorem getYarnWorkspaces_nonempty (rootFolder : String)
    (joinP : String → String → String) (parsedData : Option (List (String × String))) :
    (∀ ws, InitSources.getYarnWorkspaces rootFolder joinP parsedData = .ok ws →
      ws ≠ []) ∧
    ((parsedData = none ∨ parsedData = some []) →
      InitSources.getYarnWorkspaces rootFolder joinP parsedData =
        .error "Yarn Workspaces are not found") := by
  constructor
  · intro ws hws
    unfold InitSources.getYarnWorkspaces at hws
    exact ok_of_guarded_if hws
  · rintro (h | h) <;> subst h <;> rfl

/-- C7, witness: a falsy yarn output is fatal, and the index built from one
discovered package is non-empty. -/
theorem getYarnWorkspaces_nonempty_witness :
    InitSources.getYarnWorkspaces "/root" (fun a b => a ++ "/" ++ b) none =
      .error "Yarn Workspaces are not found" ∧
    ([("pkg", "/root/loc")] : List (String × String)) ≠ [] :=
  ⟨(getYarnWorkspaces_nonempty "/root" (fun a b => a ++ "/" ++ b) none).2 (Or.inl rfl),
    (getYarnWorkspaces_nonempty "/root" (fun a b => a ++ "/" ++ b)
      (some [("pkg", "loc")])).1 [("pkg", "/root/loc")] rfl⟩

/-- C8.  An explicitly provided config path (non-empty, hence truthy) that
does not exist on disk makes `readConfigurationAndGenerate` throw the
configuration error with an empty effect trace: no temp-file write and no
`generate` call — hence no manifest, symlink or on-disk mutation — happens
before the abort. -/
theorem readConfigurationAndGenerate_missing_config (existsSync : String → Bool)
    (resolve : String → String) (tmpFileName downloadedData : String)
    (configPath : String) (dev : Bool) (hp : configPath ≠ "")
    (h : existsSync (resolve configPath) = false) :
    InitSources.readConfigurationAndGenerate existsSync resolve tmpFileName
        downloadedData (some configPath) dev =
      ([], .error "Config file does not exists") := by
  unfold InitSources.readConfigurationAndGenerate
  simp [jsTruthyStr, hp, h]

/-- C8, witness: a missing explicit config path aborts with the error and
an empty effect trace. -/
theorem readConfigurationAndGenerate_missing_config_witness :
    InitSources.readConfigurationAndGenerate (fun _ => false) (fun s => s) "/tmp/t"
        "data" (some "conf.yml") false =
      ([], .error "Config file does not exists") :=
  readConfigurationAndGenerate_missing_config (fun _ => false) (fun s => s) "/tmp/t"
    "data" "conf.yml" false (by decide) rfl

theorem find?_isSome_of_any {β : Type} (l : List (String × β)) (k : String)
    (h : l.any (fun p => p.1 == k) = true) :
    (l.find? (fun p => p.1 == k)).isSome = true := by
  induction l with
  | nil => simp at h
  | cons q t ih =>
    by_cases hq : (q.1 == k) = true
    · rw [List.find?_cons_of_pos _ (a := q) hq]
      rfl
    · rw [List.find?_cons_of_neg _ (a := q) hq]
      refine ih ?_
      simp only [List.any_cons, Bool.or_eq_true] at h
      exact h.resolve_left hq

theorem lookupPref_setPreferenceValue (st : PreferencesProvider.PrefState)
    (k k' : String) (v : PreferencesProvider.PrefValue)
    (h : PreferencesProvider.hasPref st k = true) :
    PreferencesProvider.lookupPref (PreferencesProvider.setPreferenceValue st k' v) k =
      PreferencesProvider.lookupPref st k := by
  unfold PreferencesProvider.setPreferenceValue
  by_cases h' : PreferencesProvider.hasPref st k' = true
  · rw [if_pos h']
  · rw [if_neg h']
    unfold PreferencesProvider.setPref
    rw [if_neg (show ¬ st.any (fun e => e.1 == k') = true from h')]
    unfold PreferencesProvider.lookupPref
    rw [List.find?_append]
    have hs := find?_isSome_of_any st k h
    cases hf : st.find? (fun e => e.1 == k) with
    | none => rw [hf] at hs; cases hs
    | some p => rfl

theorem hasPref_setPreferenceValue (st : PreferencesProvider.PrefState)
    (k k' : String) (v : PreferencesProvider.PrefValue)
    (h : PreferencesProvider.hasPref st k = true) :
    PreferencesProvider.hasPref (PreferencesProvider.setPreferenceValue st k' v) k =
      true := by
  unfold PreferencesProvider.setPreferenceValue
  by_cases h' : PreferencesProvider.hasPref st k' = true
  · rwa [if_pos h']
  · rw [if_neg h']
    unfold PreferencesProvider.setPref PreferencesProvider.hasPref
    rw [if_neg (show ¬ st.any (fun e => e.1 == k') = true from h'), List.any_append,
      show st.any (fun e => e.1 == k) = true from h]
    rfl

theorem setPluginProperties_cons (parseValue : String → Option JsonValue)
    (kv : String × String) (rest : List (String × String))
    (st : PreferencesProvider.PrefState) :
    PreferencesProvider.setPluginProperties parseValue (kv :: rest) st =
      PreferencesProvider.setPluginProperties parseValue rest
        (match parseValue kv.2 with
          | some v => PreferencesProvider.setPreferenceValue st kv.1 (.json v)
          | none => PreferencesProvider.setPreferenceValue st kv.1 (.str kv.2)) := rfl

theorem lookupPref_setPluginProperties (parseValue : String → Option JsonValue)
    (props : List (String × String)) :
    ∀ st k, PreferencesProvider.hasPref st k = true →
      PreferencesProvider.lookupPref
          (PreferencesProvider.setPluginProperties parseValue props st) k =
        PreferencesProvider.lookupPref st k := by
  induction props with
  | nil =>
    intro st k h
    rfl
  | cons kv rest ih =>
    intro st k h
    rw [setPluginProperties_cons]
    cases hp : parseValue kv.2 with
    | some v =>
      exact (ih _ k (hasPref_setPreferenceValue st k kv.1 (.json v) h)).trans
        (lookupPref_setPreferenceValue st k kv.1 (.json v) h)
    | none =>
      exact (ih _ k (hasPref_setPreferenceValue st k kv.1 (.str kv.2) h)).trans
        (lookupPref_setPreferenceValue st k kv.1 (.str kv.2) h)

theorem mem_setPreferenceValue (st : PreferencesProvider.PrefState) (k : String)
    (v : PreferencesProvider.PrefValue) (e : String × PreferencesProvider.PrefValue ×
      PreferencesProvider.PreferenceScope)
    (h : e ∈ PreferencesProvider.setPreferenceValue st k v) :
    e ∈ st ∨ e.2.2 = PreferencesProvider.PreferenceScope.workspace := by
  unfold PreferencesProvider.setPreferenceValue at h
  by_cases h' : PreferencesProvider.hasPref st k = true
  · rw [if_pos h'] at h
    exact Or.inl h
  · rw [if_neg h'] at h
    unfold PreferencesProvider.setPref at h
    rw [if_neg (show ¬ st.any (fun x => x.1 == k) = true from h')] at h
    rcases List.mem_append.mp h with h1 | h1
    · exact Or.inl h1
    · rw [List.mem_singleton.mp h1]
      exact Or.inr rfl

theorem mem_setPluginProperties (parseValue : String → Option JsonValue)
    (props : List (String × String)) :
    ∀ st e, e ∈ PreferencesProvider.setPluginProperties parseValue props st →
      e ∈ st ∨ e.2.2 = PreferencesProvider.PreferenceScope.workspace := by
  induction props with
  | nil =>
    intro st e he
    exact Or.inl he
  | cons kv rest ih =>
    intro st e he
    rw [setPluginProperties_cons] at he
    cases hp : parseValue kv.2 with
    | some v =>
      rw [hp] at he
      rcases ih _ e he with h1 | h1
      · exact mem_setPreferenceValue st kv.1 (.json v) e h1
      · exact Or.inr h1
    | none =>
      rw [hp] at he
      rcases ih _ e he with h1 | h1
      · exact mem_setPreferenceValue st kv.1 (.str kv.2) e h1
      · exact Or.inr h1

/-- C9 (amended).  Malformed JSON payloads in the preference-sync
collaborator never fail the operation: `getPluginsProperties` succeeds for
every devfile that has a `components` section, a component status whose
`CHE_THEIA_SIDECAR_PREFERENCES` env payload fails to parse contributes
exactly nothing (the run behaves as if that status had no env), and
`setPluginProperties` reacts to a preference value that fails to parse by
logging the warning and setting the raw string value, then continues with
the remaining pairs. -/
theorem prefs_parse_failure_graceful :
    (∀ (parseEnv : String → Option PreferencesProvider.PrefMap)
        (comps : List PreferencesProvider.Component)
        (statuses : List PreferencesProvider.ComponentStatus),
      ∃ props, PreferencesProvider.getPluginsProperties parseEnv (some comps) statuses =
        .ok props) ∧
    (∀ (parseEnv : String → Option PreferencesProvider.PrefMap)
        (comps : List PreferencesProvider.Component)
        (pre post : List PreferencesProvider.ComponentStatus) (nm : String)
        (envs : List PreferencesProvider.EnvVar) (e : PreferencesProvider.EnvVar),
      envs.find? (fun env => env.name == "CHE_THEIA_SIDECAR_PREFERENCES") = some e →
      parseEnv e.value = none →
      PreferencesProvider.getPluginsProperties parseEnv (some comps)
          (pre ++ ⟨nm, some envs⟩ :: post) =
        PreferencesProvider.getPluginsProperties parseEnv (some comps)
          (pre ++ ⟨nm, none⟩ :: post)) ∧
    (∀ (parseValue : String → Option JsonValue) (k v : String)
        (rest : List (String × String)) (st : PreferencesProvider.PrefState),
      parseValue v = none →
      PreferencesProvider.setPluginProperties parseValue ((k, v) :: rest) st =
        PreferencesProvider.setPluginProperties parseValue rest
          (PreferencesProvider.setPreferenceValue st k (.str v))) := by
  refine ⟨fun parseEnv comps statuses => ?_,
    fun parseEnv comps pre post nm envs e hfind hparse => ?_,
    fun parseValue k v rest st hparse => ?_⟩
  · unfold PreferencesProvider.getPluginsProperties
    dsimp only
    split
    · exact ⟨_, rfl⟩
    · exact ⟨_, rfl⟩
  · have hmid : PreferencesProvider.componentStatusPreference parseEnv ⟨nm, some envs⟩ = [] := by
      simp [PreferencesProvider.componentStatusPreference, hfind, hparse]
    unfold PreferencesProvider.getPluginsProperties
    dsimp only
    refine if_congr Iff.rfl rfl ?_
    simp only [List.map_append, List.map_cons, hmid]
    rfl
  · rw [setPluginProperties_cons]
    dsimp only
    rw [hparse]

/-- C9, witness: one component whose sidecar-preferences payload is
invalid JSON still yields a successful, empty property list, and a
preference pair whose value fails to parse is applied as a raw string
before processing continues. -/
theorem prefs_parse_failure_graceful_witness :
    PreferencesProvider.getPluginsProperties (fun _ => none) (some [])
        [⟨"tools", some [⟨"CHE_THEIA_SIDECAR_PREFERENCES", "bad-json"⟩]⟩] = .ok [] ∧
    PreferencesProvider.setPluginProperties (fun _ => none) [("k", "bad")] [] =
      PreferencesProvider.setPluginProperties (fun _ => none) []
        (PreferencesProvider.setPreferenceValue [] "k" (.str "bad")) := by
  constructor
  · exact (prefs_parse_failure_graceful.2.1 (fun _ => none) [] [] [] "tools"
      [⟨"CHE_THEIA_SIDECAR_PREFERENCES", "bad-json"⟩]
      ⟨"CHE_THEIA_SIDECAR_PREFERENCES", "bad-json"⟩ rfl rfl).trans rfl
  · exact prefs_parse_failure_graceful.2.2 (fun _ => none) "k" "bad" [] [] rfl

/-- C9, counterexample to the claim as stated: a preference pair whose
value fails to parse is not skipped by `setPluginProperties` — the key is
still written, with the raw string as its value, so the service state does
change. -/
theorem setPluginProperties_fallback_counterexample :
    PreferencesProvider.setPluginProperties (fun _ => none)
        [("editor.fontSize", "oops")] [] =
      [("editor.fontSize", PreferencesProvider.PrefValue.str "oops",
        PreferencesProvider.PreferenceScope.workspace)] ∧
    ([("editor.fontSize", PreferencesProvider.PrefValue.str "oops",
        PreferencesProvider.PreferenceScope.workspace)] :
      PreferencesProvider.PrefState) ≠ [] :=
  ⟨rfl, fun h => List.noConfusion h⟩

/-- C10.  `setPluginProperties` (and through it `restorePluginProperties`)
never overwrites a preference the service already has: an existing key's
value and scope are left exactly as found, and every entry the operation
adds that was not present before sits at Workspace scope. -/
theorem setPluginProperties_preserves_existing
    (parseValue : String → Option JsonValue) (props : List (String × String))
    (st : PreferencesProvider.PrefState) :
    (∀ k, PreferencesProvider.hasPref st k = true →
      PreferencesProvider.lookupPref
          (PreferencesProvider.setPluginProperties parseValue props st) k =
        PreferencesProvider.lookupPref st k) ∧
    (∀ e, e ∈ PreferencesProvider.setPluginProperties parseValue props st →
      e ∈ st ∨ e.2.2 = PreferencesProvider.PreferenceScope.workspace) ∧
    (∀ (parseEnv : String → Option PreferencesProvider.PrefMap)
        (components : Option (List PreferencesProvider.Component))
        (statuses : List PreferencesProvider.ComponentStatus) (k : String),
      PreferencesProvider.hasPref st k = true →
      PreferencesProvider.lookupPref
          (PreferencesProvider.restorePluginProperties parseEnv parseValue components
            statuses st).1 k =
        PreferencesProvider.lookupPref st k) := by
  refine ⟨fun k h => lookupPref_setPluginProperties parseValue props st k h,
    fun e he => mem_setPluginProperties parseValue props st e he,
    fun parseEnv components statuses k h => ?_⟩
  unfold PreferencesProvider.restorePluginProperties
  cases hg : PreferencesProvider.getPluginsProperties parseEnv components statuses with
  | error err => rfl
  | ok props2 => exact lookupPref_setPluginProperties parseValue props2 st k h

/-- C10, witness: a key that already has a User-scope value keeps it
untouched when the same key arrives among the plugin properties. -/
theorem setPluginProperties_preserves_existing_witness :
    PreferencesProvider.lookupPref
        (PreferencesProvider.setPluginProperties (fun _ => none) [("k", "new")]
          [("k", PreferencesProvider.PrefValue.str "old",
            PreferencesProvider.PreferenceScope.user)]) "k" =
      PreferencesProvider.lookupPref
        [("k", PreferencesProvider.PrefValue.str "old",
          PreferencesProvider.PreferenceScope.user)] "k" :=
  (setPluginProperties_preserves_existing (fun _ => none) [("k", "new")]
    [("k", PreferencesProvider.PrefValue.str "old",
      PreferencesProvider.PreferenceScope.user)]).1 "k" rfl

end CheTheia
